import Mathlib

/-!
Verification of `automatedFTPDownloader.py` (AutomatedFTPDownload).

Shallow embedding of the script's data model and operations:

* Python values appearing in the parsed YAML configuration and in the
  logger's `data` payload are modelled by `PyVal`; Python runtime
  exceptions that the modelled code can raise are `PyErr`.
* Dictionaries (the YAML mapping of site name to site entry, and each
  entry's key/value mapping) are association lists with unique keys,
  in insertion order, matching Python 3.7+ `dict` iteration order.
* `Logger.writeLog` is modelled by `writeLog`; the wall-clock timestamp
  is passed in as a parameter.  On success it returns the line appended
  to the log file; raising (e.g. the `TypeError` from concatenating a
  non-string `data` payload) is an `Except.error`.
* `loadCredentials`, the site loop of `main`, `downloadFiles`'s download
  loop, `unzipZippedFiles` and the purge path of `parseArgs` /
  `getDefaultDownloadPath` are modelled below, each next to a comment
  pointing at the source lines it embeds.
-/

/-- Python values relevant to the script: strings, integers
(a password may be numeric in the YAML), `None`, and exception objects
(`yaml.YAMLError` instances stored in the logger's `data` payload). -/
inductive PyVal where
  | pstr (s : String)
  | pint (n : Int)
  | pnone
  | pexc (msg : String)
  deriving DecidableEq, Repr

/-- Python runtime exceptions the modelled code can raise. -/
inductive PyErr where
  | keyError
  | typeError
  | nameError
  | fileNotFound
  deriving DecidableEq, Repr

/-- Python truthiness for the values of `PyVal`: `''`, `0` and `None`
are falsy, everything else is truthy. -/
def truthy : PyVal → Bool
  | .pstr s => !(s == "")
  | .pint n => !(n == 0)
  | .pnone => false
  | .pexc _ => true

/-- Python `str + x`: succeeds only when `x` is itself a string;
concatenating a non-string (such as the exception object stored under
`data` with code 3 at line 687) raises `TypeError`. -/
def pyAddStr (s : String) : PyVal → Except PyErr String
  | .pstr t => .ok (s ++ t)
  | _ => .error .typeError

/-- First-match lookup in an association list (Python `d[k]` success case). -/
def lookupA {α : Type} (l : List (String × α)) (k : String) : Option α :=
  match l with
  | [] => none
  | (k2, v) :: rest => if k2 == k then some v else lookupA rest k

/-- Python `k in d.keys()`. -/
def hasKeyA {α : Type} (l : List (String × α)) (k : String) : Bool :=
  (lookupA l k).isSome

/-- Python `del d[k]` on a present key: removes the binding. -/
def delKey {α : Type} (l : List (String × α)) (k : String) : List (String × α) :=
  l.filter (fun p => !(p.1 == k))

/-- The `data` dictionary passed to `Logger.writeLog` for code-breaker
entries: an error `code`, and the optional `response` / `error` payload
values (`errorVal` models the Python key `'error'`). -/
structure LogData where
  code : Nat
  response : Option PyVal
  errorVal : Option PyVal
  deriving DecidableEq, Repr

/-- Log-line prefix built by `Logger.writeLog` (lines 650-681):
`' ' + indicator + '  |  ' + lineNumber` then a pad that depends on
`int(lineNumber) < 100`, then `timestamp + ': ' + message`. -/
def formatLine (indicator : String) (lineNumber : Nat) (timestamp message : String) : String :=
  let ln := toString lineNumber
  let pad := if lineNumber < 100 then "   | " else "  | "
  " " ++ indicator ++ "  |  " ++ ln ++ pad ++ timestamp ++ ": " ++ message

/-- `Logger.writeLog` (lines 621-694), less the file handle: on success
the result is the line appended to the session log.  For severity
`code-breaker` with `data['code'] == 2` or `3` the code concatenates
`data['response']` / `data['error']` into the details block; if that
payload is not a string the concatenation raises `TypeError` before
anything is written.  A `None` data raises `TypeError` at
`data['code']`; an unknown severity leaves `toWrite` unbound and the
final `self.log.write(toWrite ...)` raises `NameError`. -/
def writeLog (message : String) (lineNumber : Nat) (timestamp : String)
    (severity : String) (data : Option LogData) : Except PyErr String :=
  if severity == "normal" then .ok (formatLine "[N]" lineNumber timestamp message)
  else if severity == "warning" then .ok (formatLine "[W]" lineNumber timestamp message)
  else if severity == "error" then .ok (formatLine "[X]" lineNumber timestamp message)
  else if severity == "code-breaker" then
    let toWrite := formatLine "[!]" lineNumber timestamp message
    match data with
    | none => .error .typeError
    | some d =>
      if d.code == 2 then
        match d.response with
        | none => .error .keyError
        | some v =>
          match pyAddStr "\n[ErrorDetailsStart]\n" v with
          | .error e => .error e
          | .ok s => .ok (toWrite ++ (s ++ "\n[ErrorDetailsEnd]"))
      else if d.code == 3 then
        match d.errorVal with
        | none => .error .keyError
        | some v =>
          match pyAddStr "\n[ErrorDetailsStart]\n" v with
          | .error e => .error e
          | .ok s => .ok (toWrite ++ (s ++ "\n[ErrorDetailsEnd]"))
      else .ok toWrite
  else .error .nameError

/-- One parsed YAML site entry: its key/value pairs. -/
abbrev Entry := List (String × PyVal)

/-- The parsed YAML top-level mapping: site name to entry. -/
abbrev Catalog := List (String × Entry)

/-- Python `d[k]`: `KeyError` when the key is absent. -/
def pyGet (e : Entry) (k : String) : Except PyErr PyVal :=
  match lookupA e k with
  | none => .error .keyError
  | some v => .ok v

/-- The four keys required of a site entry (line 178). -/
def requiredKeys : List String := ["site", "user", "password", "remote_path"]

/-- The condition at line 183,
`site['site'] and site['user'] and site['password'] and site['remote_path']`,
with Python short-circuit evaluation: a falsy value stops evaluation,
and a missing key reached before any falsy value raises `KeyError`. -/
def evalAllTruthy (site : Entry) : Except PyErr Bool := do
  let v1 ← pyGet site "site"
  if !truthy v1 then return false
  let v2 ← pyGet site "user"
  if !truthy v2 then return false
  let v3 ← pyGet site "password"
  if !truthy v3 then return false
  let v4 ← pyGet site "remote_path"
  return truthy v4

/-- The body of the validation loop of `loadCredentials` for one site
name (lines 175-185).  Returns the warning lines written and either the
updated catalog or the exception raised.  Note the source has no
`continue` after the first deletion: the second check still runs on
`site`, and its `del ftpConfigs[config]` re-deletes the same key. -/
def checkConfigStep (ts : String) (cat : Catalog) (name : String) :
    List String × Except PyErr Catalog :=
  match lookupA cat name with
  | none => ([], .error .keyError)
  | some site =>
    let step1 : List String × Except PyErr Catalog :=
      if requiredKeys.all (fun k => hasKeyA site k) then ([], .ok cat)
      else
        match writeLog ("Key missing from " ++ name ++ " site info. Removing faulty config...")
            179 ts "warning" none with
        | .error e => ([], .error e)
        | .ok line => ([line], .ok (delKey cat name))
    match step1 with
    | (logs1, .error e) => (logs1, .error e)
    | (logs1, .ok cat1) =>
      match evalAllTruthy site with
      | .error e => (logs1, .error e)
      | .ok true => (logs1, .ok cat1)
      | .ok false =>
        match writeLog ("A value in in " ++ name ++
            " site info is None (Not present). Removing faulty config...") 184 ts "warning" none with
        | .error e => (logs1, .error e)
        | .ok line2 =>
          if hasKeyA cat1 name then (logs1 ++ [line2], .ok (delKey cat1 name))
          else (logs1 ++ [line2], .error .keyError)

/-- The loop `for config in list(ftpConfigs.keys())` of `loadCredentials`:
iterates over the snapshot of the original keys, threading the mutated
catalog and accumulating warning lines; a raised exception aborts. -/
def checkConfigsLoop (ts : String) : List String → List String → Catalog →
    List String × Except PyErr Catalog
  | [], logs, cat => (logs, .ok cat)
  | name :: rest, logs, cat =>
    match checkConfigStep ts cat name with
    | (l2, .error e) => (logs ++ l2, .error e)
    | (l2, .ok cat2) => checkConfigsLoop ts rest (logs ++ l2) cat2

/-- `loadCredentials` (lines 152-186), starting from the outcome of
`yaml.safe_load`.  On a `yaml.YAMLError` the code calls `writeLog` with
severity `code-breaker` and `data = {'code': 3, 'error': exc}` where
`exc` is the exception object; it does not exit afterwards, so control
would fall through to the validation loop with `ftpConfigs` unbound
(`NameError`).  On a successful parse the validation loop runs. -/
def loadCredentials (ts : String) (parseResult : Except String Catalog) :
    List String × Except PyErr Catalog :=
  match parseResult with
  | .error exc =>
    match writeLog "Error while loading YAML." 172 ts "code-breaker"
        (some ⟨3, none, some (.pexc exc)⟩) with
    | .error e => ([], .error e)
    | .ok line => ([line], .error .nameError)
  | .ok cat => checkConfigsLoop ts (cat.map Prod.fst) [] cat

/-- Whether an `Except` value is a success. -/
def exOk {ε α : Type} : Except ε α → Bool
  | .ok _ => true
  | .error _ => false

/-- Selector expansion in `main` (lines 88-94): the sentinel selector
`.*_.*` is replaced by the list of all catalog keys, in catalog order;
any other selector stays as the singleton target list. -/
def resolveTargets (targetFTPSite : String) (catalogKeys : List String) : List String :=
  if targetFTPSite == ".*_.*" then catalogKeys else [targetFTPSite]

/-- The site loop of `main` (lines 100-108).  `connect` models
`connectToFTP` for one site: either the list of downloaded file names
or a raised exception (failed handshake/login, missing remote path).
The loop body is not wrapped in any try/except, so an exception aborts
the loop.  Returns the list of sites for which a connection was
attempted, and either the accumulated `allFilesDownloaded` or the
propagated exception. -/
def siteLoop (connect : String → Except Unit (List String)) :
    List String → List String × Except Unit (List String)
  | [] => ([], .ok [])
  | s :: rest =>
    match connect s with
    | .error e => ([s], .error e)
    | .ok files =>
      match siteLoop connect rest with
      | (att, .error e) => (s :: att, .error e)
      | (att, .ok more) => (s :: att, .ok (files ++ more))

/-- Target-site validation in `parseArgs` (lines 409-416): when a site
was named on the command line (`-s`), a name absent from the loaded
catalog keys logs code-breaker entries and calls `exit()` (`none`);
otherwise the (sentinel or validated) selector is returned. -/
def checkTargetSite (ftpConfigKeys : List String) (targetSiteSpecified : Bool)
    (targetSite : String) : Option String :=
  if targetSiteSpecified then
    if ftpConfigKeys.contains targetSite then some targetSite else none
  else some ".*_.*"

/-- The run after credentials are loaded: `parseArgs`'s target-site
validation followed by `main`'s selector expansion and site loop.
Result: the sites against which a connection was attempted, and
`none` when the run exited in `parseArgs` before any connection. -/
def runPipeline (ftpConfigKeys : List String) (targetSiteSpecified : Bool)
    (targetSite : String) (connect : String → Except Unit (List String)) :
    List String × Option (Except Unit (List String)) :=
  match checkTargetSite ftpConfigKeys targetSiteSpecified targetSite with
  | none => ([], none)
  | some t =>
    let r := siteLoop connect (resolveTargets t ftpConfigKeys)
    (r.1, some r.2)

/-- The filter at line 264: `(filename != '.') and (filename != '..')`. -/
def notDots (filename : String) : Bool :=
  !(filename == ".") && !(filename == "..")

/-- Observable state of the download loop of `downloadFiles`:
the returned `filesDownloaded`, the names for which a fetch was
attempted (loop body entered), the local files created (and truncated)
by `open(..., "wb")`, the file handles left unclosed, and the log
lines written inside the loop. -/
structure DLState where
  downloaded : List String
  attempted : List String
  created : List String
  openHandles : List String
  logs : List String
  deriving DecidableEq, Repr

/-- The download loop of `downloadFiles` (lines 262-272) over the bare
NLST listing.  `openOk f` models whether `open(localDir/f, "wb")`
succeeds (creating/truncating the local file), `retrOk f` whether
`ftp.retrbinary("RETR " + f, file.write)` succeeds.  On success the
name is appended to `filesDownloaded` and the handle closed; any
exception in the try block is swallowed, logged as a skipped
directory, and the loop continues — leaving the created file and its
unclosed handle behind when `open` succeeded but the fetch failed. -/
def downloadLoop (openOk retrOk : String → Bool) : List String → DLState
  | [] => ⟨[], [], [], [], []⟩
  | filename :: rest =>
    let st := downloadLoop openOk retrOk rest
    if notDots filename then
      if openOk filename then
        if retrOk filename then
          { downloaded := filename :: st.downloaded
            attempted := filename :: st.attempted
            created := filename :: st.created
            openHandles := st.openHandles
            logs := ("Downloading " ++ filename ++ "...") :: st.logs }
        else
          { downloaded := st.downloaded
            attempted := filename :: st.attempted
            created := filename :: st.created
            openHandles := filename :: st.openHandles
            logs := ("Downloading " ++ filename ++ "...") ::
              (filename ++ " was actually a directory, skipping...") :: st.logs }
      else
        { downloaded := st.downloaded
          attempted := filename :: st.attempted
          created := st.created
          openHandles := st.openHandles
          logs := ("Downloading " ++ filename ++ "...") ::
            (filename ++ " was actually a directory, skipping...") :: st.logs }
    else st

/-- Content of a local file, as the archive libraries classify it:
a zip container with its member files, a tar container with its member
files, or anything else.  `zipfile.is_zipfile` / `tarfile.is_tarfile`
inspect only this content (magic bytes), never the file name. -/
inductive Content where
  | czip (entries : List (String × Content))
  | ctar (entries : List (String × Content))
  | cother
  deriving Repr

/-- `zipfile.is_zipfile`: content-signature test for zip. -/
def isZipContent : Content → Bool
  | .czip _ => true
  | _ => false

/-- `tarfile.is_tarfile`: content-signature test for tar. -/
def isTarContent : Content → Bool
  | .ctar _ => true
  | _ => false

/-- Member files of a zip container. -/
def zipEntriesOf : Content → List (String × Content)
  | .czip es => es
  | _ => []

/-- Member files of a tar container. -/
def tarEntriesOf : Content → List (String × Content)
  | .ctar es => es
  | _ => []

/-- A flat local directory: file name to content, unique names. -/
abbrev LocalDir := List (String × Content)

/-- Writing one extracted member into the directory: overwrite an
existing file of the same name, otherwise add it. -/
def upsert (dir : LocalDir) (name : String) (c : Content) : LocalDir :=
  if hasKeyA dir name then
    dir.map (fun p => if p.1 == name then (name, c) else p)
  else dir ++ [(name, c)]

/-- `extractall(downloadPath)`: write every member into the directory. -/
def extractAll (dir : LocalDir) (entries : List (String × Content)) : LocalDir :=
  entries.foldl (fun d e => upsert d e.1 e.2) dir

/-- The body of `unzipZippedFiles` for one downloaded name
(lines 310-323): if the local file is a valid zip container, extract
all members into the download directory; else if a valid tar
container, likewise; else do nothing.  `zipfile.is_zipfile` on a path
that does not exist raises `FileNotFoundError`; the source file is
never removed. -/
def unzipOne (dir : LocalDir) (name : String) : Except PyErr LocalDir :=
  match lookupA dir name with
  | none => .error .fileNotFound
  | some c =>
    if isZipContent c then .ok (extractAll dir (zipEntriesOf c))
    else if isTarContent c then .ok (extractAll dir (tarEntriesOf c))
    else .ok dir

/-- `unzipZippedFiles` (lines 297-323): the loop over all downloaded
names. -/
def unzipZippedFiles (dir : LocalDir) : List String → Except PyErr LocalDir
  | [] => .ok dir
  | n :: rest =>
    match unzipOne dir n with
    | .error e => .error e
    | .ok d2 => unzipZippedFiles d2 rest

/-- Character-list prefix test (helper for the substring tests below). -/
def isPrefixL : List Char → List Char → Bool
  | [], _ => true
  | _ :: _, [] => false
  | c :: cs, d :: ds => c == d && isPrefixL cs ds

/-- Character-list substring occurrence (helper). -/
def occursL (p : List Char) : List Char → Bool
  | [] => isPrefixL p []
  | c :: rest => isPrefixL p (c :: rest) || occursL p rest

/-- Whether `pat` occurs as a substring of `s` (the effect of
`re.compile(pat).search(s)` for the literal pattern `SureDone_`). -/
def substrOccurs (pat s : String) : Bool :=
  occursL pat.data s.data

/-- Python `s.endswith(suffix)`. -/
def strEndsWith (s suffix : String) : Bool :=
  isPrefixL suffix.data.reverse s.data.reverse

/-- The removal condition of `purge` (lines 555-563) for the call
`purge(downloadPath, 'SureDone_')` with `inclusive=True`: the file
path matches the pattern and does not end in `.py`. -/
def purgeMatches (pattern f : String) : Bool :=
  substrOccurs pattern f && !(strEndsWith f ".py")

/-- `purge(dir, pattern)` as a transformation of the set of file paths
under the directory: every matching path is `os.remove`d. -/
def purge (files : List String) (pattern : String) : List String :=
  files.filter (fun f => !(purgeMatches pattern f))

/-- `getDefaultDownloadPath(preserve)` (lines 506-535), restricted to
its filesystem effect: when `preserve` is false it purges files
matching `SureDone_` from the default download directory. -/
def getDefaultDownloadPath (preserve : Bool) (files : List String) : List String :=
  if !preserve then purge files "SureDone_" else files

/-- The output-path resolution of `parseArgs` (lines 402-403): when no
custom output path was validated, the default download path is used
and `getDefaultDownloadPath` is called with the `-p` flag's value. -/
def parseArgsFiles (preserveFlag customOutputPathFoundAndValidated : Bool)
    (files : List String) : List String :=
  if !customOutputPathFoundAndValidated then getDefaultDownloadPath preserveFlag files
  else files

/-- The entry-point sequencing relevant to the preserve flag: `main`
(lines 78-80) first runs `parseArgs` — which resolves the output path
and may purge — and only then force-overrides `preserveOldFiles` to
`True`.  Result: remaining files, and the final flag value. -/
def mainRun (preserveFlag customOutputValid : Bool) (files : List String) :
    List String × Bool :=
  let files1 := parseArgsFiles preserveFlag customOutputValid files
  (files1, true)

/-- A concrete `connectToFTP` outcome used to exercise the site loop:
the site `alpha` fails its connection handshake, every other site
connects and downloads one file. -/
def connectC2 : String → Except Unit (List String) :=
  fun s => if s == "alpha" then .error () else .ok ["f1.txt"]

/-- A concrete download directory: a plain text file next to a zip
archive holding one member. -/
def dirW : LocalDir :=
  [("a.txt", Content.cother), ("b.zip", Content.czip [("c.txt", Content.cother)])]

/-- The content of `b.zip` in `dirW`. -/
def cW : Content := Content.czip [("c.txt", Content.cother)]

/-! ## Helper lemmas -/

theorem hasKeyA_iff {α : Type} (l : List (String × α)) (k : String) :
    hasKeyA l k = true ↔ k ∈ l.map Prod.fst := by
  induction l with
  | nil => simp [hasKeyA, lookupA]
  | cons p rest ih =>
    obtain ⟨k2, v⟩ := p
    cases hpk : k2 == k with
    | true =>
      have hk : k2 = k := by simpa using hpk
      simp [hasKeyA, lookupA, hpk, hk]
    | false =>
      have hne : k2 ≠ k := by simpa using hpk
      have hstep : hasKeyA ((k2, v) :: rest) k = hasKeyA rest k := by
        simp [hasKeyA, lookupA, hpk]
      rw [hstep, ih, List.map_cons, List.mem_cons]
      constructor
      · exact fun h => Or.inr h
      · rintro (h | h)
        · exact absurd h.symm hne
        · exact h

theorem mem_keys_upsert_self (dir : LocalDir) (m : String) (c : Content) :
    hasKeyA (upsert dir m c) m = true := by
  rw [hasKeyA_iff]
  unfold upsert
  cases hk : hasKeyA dir m with
  | false => simp
  | true =>
    rw [hasKeyA_iff] at hk
    rw [List.mem_map] at hk
    obtain ⟨p, hp, hpm⟩ := hk
    simp only [if_pos rfl, cond_true, List.mem_map]
    refine ⟨(fun q => if q.1 == m then (m, c) else q) p, List.mem_map.mpr ⟨p, hp, rfl⟩, ?_⟩
    simp [hpm]

theorem mem_keys_upsert (dir : LocalDir) (m n : String) (c : Content)
    (h : hasKeyA dir n = true) : hasKeyA (upsert dir m c) n = true := by
  rw [hasKeyA_iff] at h ⊢
  unfold upsert
  cases hk : hasKeyA dir m with
  | false => simp [h]
  | true =>
    rw [List.mem_map] at h ⊢
    obtain ⟨p, hp, hpn⟩ := h
    refine ⟨(fun q => if q.1 == m then (m, c) else q) p, List.mem_map.mpr ⟨p, hp, rfl⟩, ?_⟩
    cases hpm : p.1 == m with
    | true =>
      have hm : p.1 = m := by simpa using hpm
      simp [hpm, ← hpn, hm]
    | false =>
      simp only [hpm, Bool.false_eq_true, if_false]
      exact hpn

theorem hasKeyA_extractAll {n : String} :
    ∀ (es : List (String × Content)) (dir : LocalDir),
      hasKeyA dir n = true → hasKeyA (extractAll dir es) n = true
  | [], _, h => h
  | e :: es, dir, h =>
    hasKeyA_extractAll es (upsert dir e.1 e.2) (mem_keys_upsert dir e.1 n e.2 h)

theorem hasKeyA_extractAll_mem :
    ∀ (es : List (String × Content)) (dir : LocalDir) (e : String × Content),
      e ∈ es → hasKeyA (extractAll dir es) e.1 = true := by
  intro es
  induction es with
  | nil => intro dir e he; cases he
  | cons a es ih =>
    intro dir e he
    cases he with
    | head =>
      exact hasKeyA_extractAll es (upsert dir a.1 a.2) (mem_keys_upsert_self dir a.1 a.2)
    | tail _ hmem => exact ih (upsert dir a.1 a.2) e hmem

theorem downloadLoop_spec (openOk retrOk : String → Bool) (listing : List String) :
    (downloadLoop openOk retrOk listing).attempted = listing.filter notDots
  ∧ (downloadLoop openOk retrOk listing).downloaded
      = (listing.filter notDots).filter (fun f => openOk f && retrOk f)
  ∧ (downloadLoop openOk retrOk listing).created
      = (listing.filter notDots).filter (fun f => openOk f)
  ∧ (downloadLoop openOk retrOk listing).openHandles
      = (listing.filter notDots).filter (fun f => openOk f && !retrOk f)
  ∧ (downloadLoop openOk retrOk listing).logs
      = (listing.filter notDots).flatMap (fun f =>
          if openOk f && retrOk f then ["Downloading " ++ f ++ "..."]
          else ["Downloading " ++ f ++ "...",
                f ++ " was actually a directory, skipping..."]) := by
  induction listing with
  | nil => exact ⟨rfl, rfl, rfl, rfl, rfl⟩
  | cons g rest ih =>
    obtain ⟨h1, h2, h3, h4, h5⟩ := ih
    cases hnd : notDots g with
    | false =>
      simp [downloadLoop, hnd, List.filter_cons, h1, h2, h3, h4, h5]
    | true =>
      cases ho : openOk g with
      | false =>
        simp [downloadLoop, hnd, ho, List.filter_cons, List.flatMap_cons, h1, h2, h3, h4, h5]
      | true =>
        cases hr : retrOk g with
        | false =>
          simp [downloadLoop, hnd, ho, hr, List.filter_cons, List.flatMap_cons,
            h1, h2, h3, h4, h5]
        | true =>
          simp [downloadLoop, hnd, ho, hr, List.filter_cons, List.flatMap_cons,
            h1, h2, h3, h4, h5]

theorem siteLoop_cons_ok (connect : String → Except Unit (List String))
    (t : String) (v : List String) (rest : List String) (hc : connect t = .ok v) :
    siteLoop connect (t :: rest) =
      (t :: (siteLoop connect rest).1,
       match (siteLoop connect rest).2 with
       | .error e => .error e
       | .ok more => .ok (v ++ more)) := by
  simp only [siteLoop, hc]
  cases hr : siteLoop connect rest with
  | mk att res => cases res <;> simp

theorem siteLoop_attempted_of_all_ok (connect : String → Except Unit (List String))
    (l : List String) (h : l.all (fun s => exOk (connect s)) = true) :
    (siteLoop connect l).1 = l := by
  induction l with
  | nil => rfl
  | cons s rest ih =>
    rw [List.all_cons, Bool.and_eq_true] at h
    cases hc : connect s with
    | error e => rw [hc] at h; simp [exOk] at h
    | ok v =>
      have h2 := ih h.2
      simp only [siteLoop, hc]
      cases hr : siteLoop connect rest with
      | mk att res =>
        rw [hr] at h2
        simp only at h2
        cases res with
        | error e => simpa using h2
        | ok more => simpa using h2

/-! ## Claim theorems -/

/-- Claim C1: the spec says every entry missing one of
`site`/`user`/`password`/`remote_path` is absent from the returned
catalog and well-formed entries are retained.  The validation loop has
no `continue` after deleting such an entry: the second check still
subscripts the missing key (or re-deletes the already deleted entry),
so `loadCredentials` raises `KeyError` instead of returning.  Entries
with all four keys present but an empty value are dropped as the spec
says, and well-formed entries are retained. -/
theorem C1_missing_key_raises_keyerror :
    (loadCredentials "12:00:00.000" (.ok [("alpha",
        [("site", .pstr "host1"), ("user", .pstr "u1"), ("password", .pstr "p1")])])).2
      = .error PyErr.keyError
  ∧ (loadCredentials "12:00:00.000" (.ok
        [("alpha", [("site", .pstr "host1"), ("user", .pstr ""), ("password", .pstr "p1"),
          ("remote_path", .pstr "/out")]),
         ("beta", [("site", .pstr "host2"), ("user", .pstr "u2"), ("password", .pstr "p2"),
          ("remote_path", .pstr "/out2")])])).2
      = .ok [("beta", [("site", .pstr "host2"), ("user", .pstr "u2"), ("password", .pstr "p2"),
          ("remote_path", .pstr "/out2")])] :=
  ⟨rfl, rfl⟩

/-- Claim C2 (counterexample): with two selected sites where `alpha`
fails its connection and `beta` would connect fine, the driver's site
loop aborts after `alpha` — `beta` is never attempted and the error
propagates — refuting the claim that a connection failure is fatal for
that site only and the driver continues with remaining sites. -/
theorem C2_claim_counterexample :
    connectC2 "beta" = .ok ["f1.txt"]
  ∧ siteLoop connectC2 ["alpha", "beta"] = (["alpha"], .error ()) :=
  ⟨rfl, rfl⟩

/-- Claim C2 (amended): the site loop of `main` wraps `connectToFTP` in
no failure boundary, so a connection failure at a selected site aborts
the whole run: exactly the sites up to and including the first failing
one are attempted, and the loop's outcome is the propagated error. -/
theorem C2_connection_failure_aborts_run (connect : String → Except Unit (List String))
    (pre : List String) (s : String) (post : List String)
    (hpre : pre.all (fun t => exOk (connect t)) = true)
    (hs : exOk (connect s) = false) :
    (siteLoop connect (pre ++ s :: post)).1 = pre ++ [s]
  ∧ exOk (siteLoop connect (pre ++ s :: post)).2 = false := by
  induction pre with
  | nil =>
    cases hc : connect s with
    | error e => simp [siteLoop, hc, exOk]
    | ok v => rw [hc] at hs; simp [exOk] at hs
  | cons t pre ih =>
    rw [List.all_cons, Bool.and_eq_true] at hpre
    obtain ⟨ih1, ih2⟩ := ih hpre.2
    cases hc : connect t with
    | error e => rw [hc] at hpre; simp [exOk] at hpre
    | ok v =>
      rw [List.cons_append, siteLoop_cons_ok connect t v (pre ++ s :: post) hc]
      constructor
      · rw [ih1]
        rfl
      · cases hres : (siteLoop connect (pre ++ s :: post)).2 with
        | error e => rfl
        | ok more => rw [hres] at ih2; simp [exOk] at ih2

/-- Claim C2 (witness for the amended theorem): concrete two-site run
where the second site's connection fails. -/
theorem C2_connection_failure_aborts_run_witness :
    (["beta"] : List String).all (fun t => exOk (connectC2 t)) = true
  ∧ exOk (connectC2 "alpha") = false
  ∧ (siteLoop connectC2 (["beta"] ++ "alpha" :: [])).1 = ["beta"] ++ ["alpha"]
  ∧ exOk (siteLoop connectC2 (["beta"] ++ "alpha" :: [])).2 = false := by
  have h := C2_connection_failure_aborts_run connectC2 ["beta"] "alpha" [] rfl rfl
  exact ⟨rfl, rfl, h.1, h.2⟩

/-- Claim C3: the spec says a fatal (code-breaker) entry is emitted and
the process then terminates when the credentials file cannot be parsed
as YAML.  In the code, `loadCredentials` passes the exception object
itself as `data['error']`; `writeLog` concatenates it to a string,
raising `TypeError` before the fatal entry is ever written (and the
code after the log call has no exit either — it would hit the
validation loop with `ftpConfigs` unbound).  At a failing parse the
model therefore produces no log line and raises `TypeError`. -/
theorem C3_yaml_failure_no_fatal_entry :
    loadCredentials "12:00:00.000" (.error "while parsing a block mapping")
      = ([], .error PyErr.typeError) :=
  rfl

/-- Claim C4: when the user-supplied `-s` selector names a site absent
from the validated catalog, `parseArgs` exits before `main` ever runs,
so no connection is attempted: the pipeline reports no attempted sites
and a halted run. -/
theorem C4_unknown_site_halts_before_connection (ftpConfigKeys : List String)
    (targetSite : String) (connect : String → Except Unit (List String))
    (habs : ftpConfigKeys.contains targetSite = false) :
    runPipeline ftpConfigKeys true targetSite connect = ([], none) := by
  have habs2 : ¬ (targetSite ∈ ftpConfigKeys) := by
    simpa [List.contains, List.elem_eq_mem] using habs
  simp [runPipeline, checkTargetSite, habs2]

/-- Claim C4 (witness): selector `gamma` against the one-site catalog
`alpha` halts with no connection attempted. -/
theorem C4_unknown_site_halts_before_connection_witness :
    (["alpha"] : List String).contains "gamma" = false
  ∧ runPipeline ["alpha"] true "gamma" (fun _ => .ok []) = ([], none) :=
  ⟨rfl, C4_unknown_site_halts_before_connection ["alpha"] "gamma" (fun _ => .ok []) rfl⟩

/-- Claim C5: the download loop never fetches `.` or `..` (every
attempted name passes the dot filter) and every downloaded name passes
the dot filter and comes from the bare NLST listing. -/
theorem C5_dot_entries_never_downloaded (openOk retrOk : String → Bool)
    (listing : List String) :
    (downloadLoop openOk retrOk listing).attempted.all notDots = true
  ∧ (downloadLoop openOk retrOk listing).downloaded.all
      (fun f => notDots f && listing.contains f) = true := by
  obtain ⟨h1, h2, h3, h4, h5⟩ := downloadLoop_spec openOk retrOk listing
  constructor
  · rw [h1, List.all_eq_true]
    intro x hx
    exact (List.mem_filter.mp hx).2
  · rw [h2, List.all_eq_true]
    intro x hx
    obtain ⟨hx1, hq⟩ := List.mem_filter.mp hx
    obtain ⟨hmem, hnd⟩ := List.mem_filter.mp hx1
    rw [Bool.and_eq_true]
    refine ⟨hnd, ?_⟩
    simp [List.contains, List.elem_eq_mem, hmem]

/-- Claim C6: every fetch failure is swallowed: the loop attempts every
non-dot name of the listing regardless of earlier failures, the
returned list is exactly the names whose open-and-fetch succeeded, in
listing order, and each failure is logged as a skipped entry. -/
theorem C6_failed_fetches_skipped (openOk retrOk : String → Bool)
    (listing : List String) :
    (downloadLoop openOk retrOk listing).downloaded
      = (listing.filter notDots).filter (fun f => openOk f && retrOk f)
  ∧ (downloadLoop openOk retrOk listing).attempted = listing.filter notDots
  ∧ (downloadLoop openOk retrOk listing).logs
      = (listing.filter notDots).flatMap (fun f =>
          if openOk f && retrOk f then ["Downloading " ++ f ++ "..."]
          else ["Downloading " ++ f ++ "...",
                f ++ " was actually a directory, skipping..."]) := by
  obtain ⟨h1, h2, h3, h4, h5⟩ := downloadLoop_spec openOk retrOk listing
  exact ⟨h2, h1, h5⟩

/-- Claim C7: the sentinel selector `.*_.*` expands to every catalog
key in catalog order — and when the connections succeed, a transfer is
attempted against each of them in that order — while any other
selector yields exactly that one site. -/
theorem C7_sentinel_expands_to_all_sites (catalogKeys : List String) (t : String)
    (connect : String → Except Unit (List String))
    (hok : catalogKeys.all (fun s => exOk (connect s)) = true)
    (hne : (t == ".*_.*") = false) :
    resolveTargets ".*_.*" catalogKeys = catalogKeys
  ∧ (siteLoop connect (resolveTargets ".*_.*" catalogKeys)).1 = catalogKeys
  ∧ resolveTargets t catalogKeys = [t]
  ∧ (siteLoop connect (resolveTargets t catalogKeys)).1 = [t] := by
  have hres : resolveTargets ".*_.*" catalogKeys = catalogKeys := by
    simp [resolveTargets]
  have hrt : resolveTargets t catalogKeys = [t] := by
    simp [resolveTargets, hne]
  refine ⟨hres, ?_, hrt, ?_⟩
  · rw [hres]
    exact siteLoop_attempted_of_all_ok connect catalogKeys hok
  · rw [hrt]
    cases hc : connect t with
    | error e => simp [siteLoop, hc]
    | ok v => simp [siteLoop, hc]

/-- Claim C7 (witness): two-site catalog, all connections succeeding,
and the non-sentinel selector `gamma`. -/
theorem C7_sentinel_expands_to_all_sites_witness :
    (["s1", "s2"] : List String).all (fun s => exOk ((fun _ => .ok []) s :
        Except Unit (List String))) = true
  ∧ (("gamma" == ".*_.*") = false)
  ∧ (resolveTargets ".*_.*" ["s1", "s2"] = ["s1", "s2"]
      ∧ (siteLoop (fun _ => .ok []) (resolveTargets ".*_.*" ["s1", "s2"])).1 = ["s1", "s2"]
      ∧ resolveTargets "gamma" ["s1", "s2"] = ["gamma"]
      ∧ (siteLoop (fun _ => .ok []) (resolveTargets "gamma" ["s1", "s2"])).1 = ["gamma"]) :=
  ⟨rfl, rfl, C7_sentinel_expands_to_all_sites ["s1", "s2"] "gamma" (fun _ => .ok []) rfl rfl⟩

/-- Claim C8: for a downloaded name present in the directory, archive
expansion dispatches on the content signature only: a zip container
extracts all members into the directory, otherwise a tar container
extracts all members, otherwise the directory is returned unchanged
with no error; and whenever expansion succeeds, every pre-existing
file (the source archive included) is still present and every member
of the archive is present. -/
theorem C8_archive_expansion (dir : LocalDir) (name : String) (c : Content)
    (hc : lookupA dir name = some c) :
    (isZipContent c = true →
      unzipOne dir name = .ok (extractAll dir (zipEntriesOf c)))
  ∧ (isZipContent c = false → isTarContent c = true →
      unzipOne dir name = .ok (extractAll dir (tarEntriesOf c)))
  ∧ (isZipContent c = false → isTarContent c = false → unzipOne dir name = .ok dir)
  ∧ (∀ d2, unzipOne dir name = .ok d2 →
      (∀ n, hasKeyA dir n = true → hasKeyA d2 n = true)
    ∧ (∀ e ∈ zipEntriesOf c ++ tarEntriesOf c, hasKeyA d2 e.1 = true)
    ∧ hasKeyA d2 name = true) := by
  have hkey : hasKeyA dir name = true := by
    rw [hasKeyA, hc]
    rfl
  refine ⟨?_, ?_, ?_, ?_⟩
  · intro hz
    simp [unzipOne, hc, hz]
  · intro hz ht
    simp [unzipOne, hc, hz, ht]
  · intro hz ht
    simp [unzipOne, hc, hz, ht]
  · intro d2 hd2
    cases c with
    | czip es =>
      simp only [unzipOne, hc, isZipContent, zipEntriesOf, if_true] at hd2
      obtain rfl : extractAll dir es = d2 := by simpa using hd2
      refine ⟨fun n hn => hasKeyA_extractAll es dir hn, ?_,
        hasKeyA_extractAll es dir hkey⟩
      intro e he
      simp only [zipEntriesOf, tarEntriesOf, List.append_nil] at he
      exact hasKeyA_extractAll_mem es dir e he
    | ctar es =>
      simp only [unzipOne, hc, isZipContent, isTarContent, zipEntriesOf, tarEntriesOf,
        Bool.false_eq_true, if_false, if_true] at hd2
      obtain rfl : extractAll dir es = d2 := by simpa using hd2
      refine ⟨fun n hn => hasKeyA_extractAll es dir hn, ?_,
        hasKeyA_extractAll es dir hkey⟩
      intro e he
      simp only [zipEntriesOf, tarEntriesOf, List.nil_append] at he
      exact hasKeyA_extractAll_mem es dir e he
    | cother =>
      simp only [unzipOne, hc, isZipContent, isTarContent,
        Bool.false_eq_true, if_false] at hd2
      obtain rfl : dir = d2 := by simpa using hd2
      refine ⟨fun n hn => hn, ?_, hkey⟩
      intro e he
      simp [zipEntriesOf, tarEntriesOf] at he

/-- Claim C8 (witness): a directory with a text file and a zip holding
one member, expanding the zip. -/
theorem C8_archive_expansion_witness :
    lookupA dirW "b.zip" = some cW
  ∧ ((isZipContent cW = true →
        unzipOne dirW "b.zip" = .ok (extractAll dirW (zipEntriesOf cW)))
    ∧ (isZipContent cW = false → isTarContent cW = true →
        unzipOne dirW "b.zip" = .ok (extractAll dirW (tarEntriesOf cW)))
    ∧ (isZipContent cW = false → isTarContent cW = false →
        unzipOne dirW "b.zip" = .ok dirW)
    ∧ (∀ d2, unzipOne dirW "b.zip" = .ok d2 →
        (∀ n, hasKeyA dirW n = true → hasKeyA d2 n = true)
      ∧ (∀ e ∈ zipEntriesOf cW ++ tarEntriesOf cW, hasKeyA d2 e.1 = true)
      ∧ hasKeyA d2 "b.zip" = true)) :=
  ⟨rfl, C8_archive_expansion dirW "b.zip" cW rfl⟩

/-- Claim C9 (counterexample): a run with no `-p` flag and no custom
output path deletes the pre-existing file `SureDone_report.csv` from
the default download directory — even though the entry point then
force-sets the preserve flag to true — refuting the claim that the
purge feature is dead code and no pre-existing file is ever deleted. -/
theorem C9_claim_counterexample :
    (mainRun false false ["SureDone_report.csv"]).1 = []
  ∧ (mainRun false false ["SureDone_report.csv"]).2 = true :=
  ⟨rfl, rfl⟩

/-- Claim C9 (amended): the force-override of the preserve flag in
`main` happens only after `parseArgs` has already resolved the default
download path, so the purge is not dead code: with no `-p` flag and no
validated custom output path, pre-existing files matching `SureDone_`
(and not ending in `.py`) are deleted; files survive exactly when the
`-p` flag is passed or a custom output path validates.  The override
itself is real: the flag value `main` goes on to use is always true. -/
theorem C9_purge_not_dead_code (preserveFlag customOutputValid : Bool)
    (files : List String) :
    (mainRun preserveFlag customOutputValid files).2 = true
  ∧ (mainRun true customOutputValid files).1 = files
  ∧ (mainRun preserveFlag true files).1 = files
  ∧ (mainRun false false files).1
      = files.filter (fun f => !(purgeMatches "SureDone_" f)) := by
  refine ⟨rfl, ?_, rfl, rfl⟩
  cases customOutputValid with
  | false => rfl
  | true => rfl

/-- Claim C10: a listing entry whose `open(localDir/name, "wb")`
succeeded but whose binary fetch failed leaves the created (truncated)
local file behind with its handle unclosed, while the name is excluded
from the returned downloaded-files list. -/
theorem C10_failed_fetch_leaves_partial_file (openOk retrOk : String → Bool)
    (listing : List String) (f : String)
    (hmem : f ∈ listing) (hnd : notDots f = true)
    (ho : openOk f = true) (hr : retrOk f = false) :
    f ∈ (downloadLoop openOk retrOk listing).created
  ∧ f ∈ (downloadLoop openOk retrOk listing).openHandles
  ∧ f ∉ (downloadLoop openOk retrOk listing).downloaded := by
  obtain ⟨h1, h2, h3, h4, h5⟩ := downloadLoop_spec openOk retrOk listing
  refine ⟨?_, ?_, ?_⟩
  · rw [h3]
    exact List.mem_filter.mpr ⟨List.mem_filter.mpr ⟨hmem, hnd⟩, ho⟩
  · rw [h4]
    exact List.mem_filter.mpr ⟨List.mem_filter.mpr ⟨hmem, hnd⟩, by simp [ho, hr]⟩
  · rw [h2]
    intro hcon
    have hq := (List.mem_filter.mp hcon).2
    rw [ho, hr] at hq
    simp at hq

/-- Claim C10 (witness): a one-entry listing whose fetch fails (as for
a remote subdirectory). -/
theorem C10_failed_fetch_leaves_partial_file_witness :
    "subdir" ∈ (["subdir"] : List String)
  ∧ notDots "subdir" = true
  ∧ ("subdir" ∈ (downloadLoop (fun _ => true) (fun _ => false) ["subdir"]).created
      ∧ "subdir" ∈ (downloadLoop (fun _ => true) (fun _ => false) ["subdir"]).openHandles
      ∧ "subdir" ∉ (downloadLoop (fun _ => true) (fun _ => false) ["subdir"]).downloaded) := by
  have h := C10_failed_fetch_leaves_partial_file (fun _ => true) (fun _ => false)
    ["subdir"] "subdir" (by simp) rfl rfl rfl
  exact ⟨by simp, rfl, h⟩
